import Mathlib

/-!
Shallow embedding of the role-claiming core of `src/Bot/complaint_management_bot.py`.

The Python module keeps two module-level dictionaries,
`ASSIGNMENTS : {role_key: {user_id, name}}` and `PENDING_CONFIRM : {user_id: role_key}`,
and mutates them from the callback handler `roles_callback` (branches `noop`,
`select:<key>`, `confirm:<key>`, `cancel`) and from the `/reset` command handler.

Python dictionaries are modelled as association lists with dict semantics:
`dictGet` is `d[k]` / `k in d` (first matching key), `dictInsert` is `d[k] = v`
(replace in place if the key is present, else append, matching insertion order),
and `dictPop` is `d.pop(k, None)` (removes the entry with key `k`; a Python dict
holds at most one such entry, so removing every match agrees with it on every
state a dict can be in).
-/

/-- One entry of `PROJECT_ROLES`: `{"key": ..., "name": ..., "desc": ...}`. -/
structure Role where
  key : String
  name : String
  desc : String
deriving DecidableEq, Repr

/-- A value of the `ASSIGNMENTS` dict: `{"user_id": ..., "name": ...}`, and also
the identity (`query.from_user`) attached to an incoming callback. -/
structure UserInfo where
  user_id : Nat
  name : String
deriving DecidableEq, Repr

/-- The static `PROJECT_ROLES` catalog of the source module. -/
def PROJECT_ROLES : List Role :=
  [ { key := "pm",
      name := "Project Manager & System Analyst",
      desc := "Responsible for project planning, requirement analysis, system documentation, use-case modeling, coordination among team members, and ensuring timely project delivery." },
    { key := "backend",
      name := "Backend Developer",
      desc := "Responsible for designing backend architecture, implementing REST APIs, handling authentication and authorization, managing complaint and feedback workflows, and integrating the database." },
    { key := "frontend",
      name := "Frontend Developer",
      desc := "Responsible for designing and implementing user interfaces, dashboards for users, officers, and administrators; ensuring responsiveness, usability, and API integration." },
    { key := "ml",
      name := "Machine Learning & Automation Engineer",
      desc := "Responsible for implementing complaint classification, priority prediction, and automatic assignment using NLP techniques such as sentence transformers, improving system intelligence." },
    { key := "devops",
      name := "Database, DevOps & Testing Engineer",
      desc := "Responsible for database schema design, ER diagrams, data integrity, Docker and deployment setup, system testing, and ensuring reliability and performance." } ]

/-- Lookup in a Python dict: `d[k]` when `k in d`, first entry whose key is `k`. -/
def dictGet {α β : Type} [DecidableEq α] (k : α) : List (α × β) → Option β
  | [] => none
  | (k1, v) :: t => if k1 = k then some v else dictGet k t

/-- Assignment `d[k] = v` on a Python dict: replace the entry in place when the
key is present, append otherwise. -/
def dictInsert {α β : Type} [DecidableEq α] (k : α) (v : β) : List (α × β) → List (α × β)
  | [] => [(k, v)]
  | (k1, v1) :: t => if k1 = k then (k, v) :: t else (k1, v1) :: dictInsert k v t

/-- `d.pop(k, None)` on a Python dict: drop the entry with key `k`. -/
def dictPop {α β : Type} [DecidableEq α] (k : α) : List (α × β) → List (α × β)
  | [] => []
  | (k1, v1) :: t => if k1 = k then dictPop k t else (k1, v1) :: dictPop k t

/-- The mutable module state: `ASSIGNMENTS` and `PENDING_CONFIRM`. -/
structure Store where
  assignments : List (String × UserInfo)
  pending : List (Nat × String)
deriving DecidableEq, Repr

/-- `ASSIGNMENTS = dict()` and `PENDING_CONFIRM = dict()` at module load. -/
def initialStore : Store := { assignments := [], pending := [] }

/-- `get_role_by_key`: first catalog role whose `key` matches, else `None`. -/
def get_role_by_key (role_key : String) : Option Role :=
  PROJECT_ROLES.find? (fun role => role.key == role_key)

/-- `get_user_role`: scan `ASSIGNMENTS.items()` in insertion order and return the
first role key held by `user_id`, else `None`. -/
def get_user_role (assignments : List (String × UserInfo)) (user_id : Nat) : Option String :=
  match assignments with
  | [] => none
  | (key, v) :: t => if v.user_id = user_id then some key else get_user_role t user_id

/-- `is_admin`: `user_id in ADMIN_IDS`.  `ADMIN_IDS` is parsed from the
environment at startup, so it is a parameter of the model. -/
def is_admin (admin_ids : List Nat) (user_id : Nat) : Bool :=
  decide (user_id ∈ admin_ids)

/-- `get_assignments_text`: one block per catalog role, in catalog order —
either the assigned-to line or the available line — joined by blank lines. -/
def get_assignments_text (assignments : List (String × UserInfo)) : String :=
  String.intercalate "\n\n"
    (PROJECT_ROLES.map (fun role =>
      match dictGet role.key assignments with
      | some user =>
          "✅ *" ++ role.name ++ "*\nAssigned to: [" ++ user.name ++
            "](tg://user?id=" ++ toString user.user_id ++ ")"
      | none => "🟦 *" ++ role.name ++ "*\n_(Available)_"))

/-- The parsed `query.data` of a callback: `"noop"`, `"select:<key>"`,
`"confirm:<key>"` or `"cancel"`. -/
inductive Callback where
  | noop
  | select (role_key : String)
  | confirm (role_key : String)
  | cancel
deriving DecidableEq, Repr

/-- How a call into the handler ends, as observed by the user (alert text or
edited message) or by the runtime (`crash` = the uncaught `TypeError` raised by
`get_role_by_key(role_key)['name']` when the key is not in the catalog). -/
inductive Outcome where
  | noopAlert
  | roleTaken
  | alreadyHasRole
  | invalidRole
  | pendingSet
  | assigned
  | crash
  | cancelled
  | unauthorized
  | resetDone
deriving DecidableEq, Repr

/-- The `roles_callback` handler: its effect on the module state together with
the outcome reported back.  Each branch follows the Python line by line:

* `select:` — reject if the role is in `ASSIGNMENTS`, then if the caller already
  holds a role, then if the key is not in the catalog; otherwise set
  `PENDING_CONFIRM[user.id]`.
* `confirm:` — reject if the role is in `ASSIGNMENTS`, then if the caller already
  holds a role; otherwise write `ASSIGNMENTS[role_key]` and pop the caller's
  pending entry, and only afterwards render the success text, which raises a
  `TypeError` (outcome `crash`) when `get_role_by_key` returns `None`.
* `cancel` — pop the caller's pending entry unconditionally. -/
def roles_callback (user : UserInfo) (data : Callback) (s : Store) : Outcome × Store :=
  match data with
  | Callback.noop => (Outcome.noopAlert, s)
  | Callback.select role_key =>
      if (dictGet role_key s.assignments).isSome then (Outcome.roleTaken, s)
      else if (get_user_role s.assignments user.user_id).isSome then (Outcome.alreadyHasRole, s)
      else
        match get_role_by_key role_key with
        | none => (Outcome.invalidRole, s)
        | some _ =>
            (Outcome.pendingSet,
              { s with pending := dictInsert user.user_id role_key s.pending })
  | Callback.confirm role_key =>
      if (dictGet role_key s.assignments).isSome then (Outcome.roleTaken, s)
      else if (get_user_role s.assignments user.user_id).isSome then (Outcome.alreadyHasRole, s)
      else
        let s1 : Store :=
          { assignments := dictInsert role_key ⟨user.user_id, user.name⟩ s.assignments,
            pending := dictPop user.user_id s.pending }
        match get_role_by_key role_key with
        | none => (Outcome.crash, s1)
        | some _ => (Outcome.assigned, s1)
  | Callback.cancel =>
      (Outcome.cancelled, { s with pending := dictPop user.user_id s.pending })

/-- The `/reset` command handler: non-admins are rejected with no mutation,
admins clear both dictionaries. -/
def reset (admin_ids : List Nat) (user_id : Nat) (s : Store) : Outcome × Store :=
  if is_admin admin_ids user_id then (Outcome.resetDone, initialStore)
  else (Outcome.unauthorized, s)

/-- States reachable from the empty module state by callbacks and resets. -/
inductive Reachable : Store → Prop
  | init : Reachable initialStore
  | callback (u : UserInfo) (d : Callback) (s : Store) :
      Reachable s → Reachable (roles_callback u d s).2
  | reset_step (admin_ids : List Nat) (uid : Nat) (s : Store) :
      Reachable s → Reachable (reset admin_ids uid s).2

/-! ## Dictionary lemmas -/

@[simp]
theorem dictGet_insert_self {α β : Type} [DecidableEq α] (k : α) (v : β) (l : List (α × β)) :
    dictGet k (dictInsert k v l) = some v := by
  induction l with
  | nil => simp [dictGet, dictInsert]
  | cons hd t ih =>
      obtain ⟨k1, v1⟩ := hd
      by_cases h : k1 = k <;> simp [dictGet, dictInsert, h, ih]

theorem dictGet_eq_none_iff {α β : Type} [DecidableEq α] (k : α) (l : List (α × β)) :
    dictGet k l = none ↔ ∀ p ∈ l, p.1 ≠ k := by
  induction l with
  | nil => simp [dictGet]
  | cons hd t ih =>
      obtain ⟨k1, v1⟩ := hd
      by_cases h : k1 = k <;> simp [dictGet, h, ih]

theorem dictInsert_eq_append {α β : Type} [DecidableEq α] {k : α} (v : β) {l : List (α × β)}
    (h : dictGet k l = none) : dictInsert k v l = l ++ [(k, v)] := by
  induction l with
  | nil => simp [dictInsert]
  | cons hd t ih =>
      obtain ⟨k1, v1⟩ := hd
      by_cases hk : k1 = k
      · simp [dictGet, hk] at h
      · simp [dictGet, hk] at h
        simp [dictInsert, hk, ih h]

theorem dictPop_idem {α β : Type} [DecidableEq α] (k : α) (l : List (α × β)) :
    dictPop k (dictPop k l) = dictPop k l := by
  induction l with
  | nil => simp [dictPop]
  | cons hd t ih =>
      obtain ⟨k1, v1⟩ := hd
      by_cases h : k1 = k <;> simp [dictPop, h, ih]

theorem dictPop_of_get_none {α β : Type} [DecidableEq α] {k : α} {l : List (α × β)}
    (h : dictGet k l = none) : dictPop k l = l := by
  induction l with
  | nil => simp [dictPop]
  | cons hd t ih =>
      obtain ⟨k1, v1⟩ := hd
      by_cases hk : k1 = k
      · simp [dictGet, hk] at h
      · simp [dictGet, hk] at h
        simp [dictPop, hk, ih h]

theorem dictGet_pop_ne {α β : Type} [DecidableEq α] {k k1 : α} (l : List (α × β))
    (h : k ≠ k1) : dictGet k (dictPop k1 l) = dictGet k l := by
  induction l with
  | nil => simp [dictPop]
  | cons hd t ih =>
      obtain ⟨k2, v2⟩ := hd
      by_cases h2 : k2 = k1
      · have hk2 : k2 ≠ k := by
          rw [h2]
          exact fun hh => h hh.symm
        simp [dictPop, dictGet, h2, hk2, ih, Ne.symm h]
      · by_cases h3 : k2 = k <;> simp [dictPop, dictGet, h2, h3, ih, h]

theorem get_user_role_eq_none_iff (l : List (String × UserInfo)) (uid : Nat) :
    get_user_role l uid = none ↔ ∀ p ∈ l, p.2.user_id ≠ uid := by
  induction l with
  | nil => simp [get_user_role]
  | cons hd t ih =>
      obtain ⟨k1, v1⟩ := hd
      by_cases h : v1.user_id = uid <;> simp [get_user_role, h, ih]

/-! ## Branch characterizations of the handler -/

theorem select_assignments (u : UserInfo) (r : String) (s : Store) :
    (roles_callback u (Callback.select r) s).2.assignments = s.assignments := by
  simp only [roles_callback]
  split
  · rfl
  · split
    · rfl
    · split <;> rfl

theorem select_taken (u : UserInfo) (r : String) (s : Store)
    (h : (dictGet r s.assignments).isSome = true) :
    roles_callback u (Callback.select r) s = (Outcome.roleTaken, s) := by
  simp [roles_callback, h]

theorem select_success (u : UserInfo) (r : String) (s : Store)
    (hfree : dictGet r s.assignments = none)
    (huser : get_user_role s.assignments u.user_id = none)
    (hrole : get_role_by_key r ≠ none) :
    roles_callback u (Callback.select r) s =
      (Outcome.pendingSet, ⟨s.assignments, dictInsert u.user_id r s.pending⟩) := by
  cases hk : get_role_by_key r with
  | none => exact absurd hk hrole
  | some ρ => simp [roles_callback, hfree, huser, hk]

theorem confirm_taken (u : UserInfo) (r : String) (s : Store)
    (h : (dictGet r s.assignments).isSome = true) :
    roles_callback u (Callback.confirm r) s = (Outcome.roleTaken, s) := by
  simp [roles_callback, h]

theorem confirm_success (u : UserInfo) (r : String) (s : Store)
    (hfree : dictGet r s.assignments = none)
    (huser : get_user_role s.assignments u.user_id = none)
    (hrole : get_role_by_key r ≠ none) :
    roles_callback u (Callback.confirm r) s =
      (Outcome.assigned,
        ⟨dictInsert r ⟨u.user_id, u.name⟩ s.assignments, dictPop u.user_id s.pending⟩) := by
  cases hk : get_role_by_key r with
  | none => exact absurd hk hrole
  | some ρ => simp [roles_callback, hfree, huser, hk]

theorem confirm_snd (u : UserInfo) (r : String) (s : Store) :
    (roles_callback u (Callback.confirm r) s).2 =
      if (dictGet r s.assignments).isSome then s
      else if (get_user_role s.assignments u.user_id).isSome then s
      else ⟨dictInsert r ⟨u.user_id, u.name⟩ s.assignments, dictPop u.user_id s.pending⟩ := by
  simp only [roles_callback]
  split
  · simp_all
  · split
    · simp_all
    · split <;> simp_all

theorem cancel_eq (u : UserInfo) (s : Store) :
    roles_callback u Callback.cancel s =
      (Outcome.cancelled, ⟨s.assignments, dictPop u.user_id s.pending⟩) := rfl

/-! ## Claims -/

/-- Claim C7: for a caller outside the admin identity set, `reset` signals
`Unauthorized` and leaves both the assignments map and the pending map exactly
as they were; for a caller in the admin set, `reset` clears both maps. -/
theorem c7_reset_authorization (admin_ids : List Nat) (uid : Nat) (s : Store) :
    (uid ∉ admin_ids → reset admin_ids uid s = (Outcome.unauthorized, s)) ∧
    (uid ∈ admin_ids → reset admin_ids uid s = (Outcome.resetDone, initialStore)) := by
  constructor <;> intro h <;> simp [reset, is_admin, h]

theorem c7_reset_authorization_witness :
    reset [7] 8 { assignments := [("pm", ⟨1, "u1"⟩)], pending := [(2, "pm")] } =
      (Outcome.unauthorized, { assignments := [("pm", ⟨1, "u1"⟩)], pending := [(2, "pm")] }) ∧
    reset [7] 7 { assignments := [("pm", ⟨1, "u1"⟩)], pending := [(2, "pm")] } =
      (Outcome.resetDone, initialStore) :=
  ⟨(c7_reset_authorization [7] 8 _).1 (by decide),
   (c7_reset_authorization [7] 7 _).2 (by decide)⟩

/-- Claim C8: `cancel` is idempotent — running it twice gives the same state as
running it once — and `cancel` with nothing pending returns the regular
cancelled outcome (no error) with the state untouched. -/
theorem c8_cancel_idempotent (u : UserInfo) (s : Store) :
    (roles_callback u Callback.cancel (roles_callback u Callback.cancel s).2).2 =
      (roles_callback u Callback.cancel s).2 ∧
    (dictGet u.user_id s.pending = none →
      roles_callback u Callback.cancel s = (Outcome.cancelled, s)) := by
  constructor
  · simp [cancel_eq, dictPop_idem]
  · intro h
    rw [cancel_eq, dictPop_of_get_none h]

theorem c8_cancel_idempotent_witness :
    (roles_callback ⟨1, "u1"⟩ Callback.cancel
        (roles_callback ⟨1, "u1"⟩ Callback.cancel
          { assignments := [], pending := [(2, "pm")] }).2).2 =
      (roles_callback ⟨1, "u1"⟩ Callback.cancel
        { assignments := [], pending := [(2, "pm")] }).2 ∧
    roles_callback ⟨1, "u1"⟩ Callback.cancel { assignments := [], pending := [(2, "pm")] } =
      (Outcome.cancelled, { assignments := [], pending := [(2, "pm")] }) :=
  ⟨(c8_cancel_idempotent ⟨1, "u1"⟩ _).1,
   (c8_cancel_idempotent ⟨1, "u1"⟩ _).2 (by decide)⟩

/-- Claim C9: after an authorized `reset`, the catalog-status rendering equals
the rendering of the initial empty state, and no key is assigned any more
(every catalog role is shown as available). -/
theorem c9_reset_rendering (admin_ids : List Nat) (uid : Nat) (s : Store)
    (h : uid ∈ admin_ids) :
    get_assignments_text (reset admin_ids uid s).2.assignments =
      get_assignments_text initialStore.assignments ∧
    ∀ r : String, dictGet r (reset admin_ids uid s).2.assignments = none := by
  have hr : reset admin_ids uid s = (Outcome.resetDone, initialStore) := by
    simp [reset, is_admin, h]
  rw [hr]
  exact ⟨rfl, fun r => rfl⟩

theorem c9_reset_rendering_witness :
    get_assignments_text
        (reset [7] 7 { assignments := [("pm", ⟨1, "u1"⟩)], pending := [] }).2.assignments =
      get_assignments_text initialStore.assignments ∧
    dictGet "pm"
        (reset [7] 7 { assignments := [("pm", ⟨1, "u1"⟩)], pending := [] }).2.assignments =
      none :=
  ⟨(c9_reset_rendering [7] 7 _ (by decide)).1,
   (c9_reset_rendering [7] 7 _ (by decide)).2 "pm"⟩

/-- Claim C10: `cancel` touches at most the caller's own pending entry — the
assignments map is unchanged and every other claimant's pending lookup is
unchanged. -/
theorem c10_cancel_frame (u : UserInfo) (s : Store) :
    (roles_callback u Callback.cancel s).2.assignments = s.assignments ∧
    ∀ uid : Nat, uid ≠ u.user_id →
      dictGet uid (roles_callback u Callback.cancel s).2.pending = dictGet uid s.pending := by
  refine ⟨rfl, fun uid h => ?_⟩
  rw [cancel_eq]
  exact dictGet_pop_ne s.pending h

theorem c10_cancel_frame_witness :
    (roles_callback ⟨1, "u1"⟩ Callback.cancel
        { assignments := [("pm", ⟨2, "u2"⟩)],
          pending := [(1, "backend"), (2, "pm")] }).2.assignments = [("pm", ⟨2, "u2"⟩)] ∧
    dictGet 2
        (roles_callback ⟨1, "u1"⟩ Callback.cancel
          { assignments := [("pm", ⟨2, "u2"⟩)],
            pending := [(1, "backend"), (2, "pm")] }).2.pending =
      dictGet 2 [(1, "backend"), (2, "pm")] :=
  ⟨(c10_cancel_frame ⟨1, "u1"⟩ _).1,
   (c10_cancel_frame ⟨1, "u1"⟩ _).2 2 (by decide)⟩

/-- Claim C1 counterexample: on the empty store claimant 2 has no PendingClaim at
all, yet `confirm:pm` succeeds and creates the Assignment — `confirm` without a
matching pending claim is not a `NoPendingClaim` no-op and the store changes. -/
theorem c1_counterexample :
    dictGet 2 initialStore.pending = none ∧
    roles_callback ⟨2, "u2"⟩ (Callback.confirm "pm") initialStore =
      (Outcome.assigned, { assignments := [("pm", ⟨2, "u2"⟩)], pending := [] }) := by
  constructor <;> rfl

/-- Claim C1 (amended): the `confirm:` branch never consults the pending map.
For a claimant with no PendingClaim for the role, confirm is validated only
against the assignments map: it leaves the store unchanged iff the role is
taken or the claimant already holds a role, and otherwise it creates the
Assignment exactly as a confirm with a matching pending claim would. -/
theorem c1_amended (u : UserInfo) (r : String) (s : Store)
    (hnp : dictGet u.user_id s.pending ≠ some r) :
    ((dictGet r s.assignments).isSome = true ∨
        (get_user_role s.assignments u.user_id).isSome = true →
      (roles_callback u (Callback.confirm r) s).2 = s) ∧
    (dictGet r s.assignments = none → get_user_role s.assignments u.user_id = none →
      (roles_callback u (Callback.confirm r) s).2.assignments =
        dictInsert r ⟨u.user_id, u.name⟩ s.assignments) := by
  constructor
  · intro h
    rw [confirm_snd]
    rcases h with h | h
    · simp [h]
    · by_cases h2 : (dictGet r s.assignments).isSome = true <;> simp [h, h2]
  · intro h1 h2
    rw [confirm_snd]
    simp [h1, h2]

theorem c1_amended_witness :
    (roles_callback ⟨2, "u2"⟩ (Callback.confirm "pm") initialStore).2.assignments =
      dictInsert "pm" ⟨2, "u2"⟩ initialStore.assignments :=
  (c1_amended ⟨2, "u2"⟩ "pm" initialStore (by decide)).2 rfl rfl

/-- Claim C2 (failing input): `confirm:xyz` — an unknown role key — from a fresh
user on the empty store first writes `ASSIGNMENTS["xyz"]` and pops the caller's
pending entry, and only then raises the `TypeError` from
`get_role_by_key(role_key)['name']`, so this error path leaves the Assignment
Store partially mutated. -/
theorem c2_unknown_key_confirm_mutates_then_crashes :
    roles_callback ⟨1, "Alice"⟩ (Callback.confirm "xyz") initialStore =
      (Outcome.crash, { assignments := [("xyz", ⟨1, "Alice"⟩)], pending := [] }) ∧
    get_role_by_key "xyz" = none := by
  constructor <;> rfl

/-- Claim C6: a successful `select` for a second available role overwrites the
claimant's pending claim (the lookup now yields the new role), creates no
Assignment (the assignments map is untouched), and the old role stays
unassigned. -/
theorem c6_select_overwrites_pending (u : UserInfo) (r1 r2 : String) (s : Store)
    (hpend : dictGet u.user_id s.pending = some r1)
    (hne : r2 ≠ r1)
    (hfree2 : dictGet r2 s.assignments = none)
    (huser : get_user_role s.assignments u.user_id = none)
    (hrole2 : get_role_by_key r2 ≠ none)
    (hfree1 : dictGet r1 s.assignments = none) :
    (roles_callback u (Callback.select r2) s).1 = Outcome.pendingSet ∧
    dictGet u.user_id (roles_callback u (Callback.select r2) s).2.pending = some r2 ∧
    (roles_callback u (Callback.select r2) s).2.assignments = s.assignments ∧
    dictGet r1 (roles_callback u (Callback.select r2) s).2.assignments = none := by
  rw [select_success u r2 s hfree2 huser hrole2]
  exact ⟨rfl, dictGet_insert_self _ _ _, rfl, hfree1⟩

theorem c6_select_overwrites_pending_witness :
    (roles_callback ⟨1, "u1"⟩ (Callback.select "backend")
        { assignments := [], pending := [(1, "pm")] }).1 = Outcome.pendingSet ∧
    dictGet 1 (roles_callback ⟨1, "u1"⟩ (Callback.select "backend")
        { assignments := [], pending := [(1, "pm")] }).2.pending = some "backend" ∧
    (roles_callback ⟨1, "u1"⟩ (Callback.select "backend")
        { assignments := [], pending := [(1, "pm")] }).2.assignments = [] ∧
    dictGet "pm" (roles_callback ⟨1, "u1"⟩ (Callback.select "backend")
        { assignments := [], pending := [(1, "pm")] }).2.assignments = none :=
  c6_select_overwrites_pending ⟨1, "u1"⟩ "pm" "backend"
    { assignments := [], pending := [(1, "pm")] }
    rfl (by decide) rfl rfl (by decide) rfl

/-- The three-step trace behind the C4 counterexample: claimant 1 selects "pm",
claimant 2 selects "pm" (still unassigned), claimant 1 confirms "pm". -/
def c4TraceStore : Store :=
  (roles_callback ⟨1, "u1"⟩ (Callback.confirm "pm")
    (roles_callback ⟨2, "u2"⟩ (Callback.select "pm")
      (roles_callback ⟨1, "u1"⟩ (Callback.select "pm") initialStore).2).2).2

/-- Claim C4 counterexample: the trace select(1,pm), select(2,pm), confirm(1,pm)
reaches a state in which "pm" has an Assignment while claimant 2's PendingClaim
still points at "pm" — an assigned role can coexist with a pending claim on it. -/
theorem c4_counterexample :
    Reachable c4TraceStore ∧
    (dictGet "pm" c4TraceStore.assignments).isSome = true ∧
    dictGet 2 c4TraceStore.pending = some "pm" :=
  ⟨Reachable.callback _ _ _ (Reachable.callback _ _ _
      (Reachable.callback _ _ _ Reachable.init)),
   rfl, rfl⟩

/-- Claim C4 (amended): in every reachable state each role key holds at most one
Assignment (the keys of the assignments map are pairwise distinct), and a role
that already has an Assignment can never acquire a new PendingClaim through
`select` — such a select fails with `RoleTaken` and leaves the store unchanged.
A PendingClaim created before the role was assigned may however survive and
keep pointing at the now-assigned role. -/
theorem c4_amended :
    (∀ s : Store, Reachable s → (s.assignments.map Prod.fst).Nodup) ∧
    (∀ (u : UserInfo) (r : String) (s : Store), (dictGet r s.assignments).isSome = true →
      roles_callback u (Callback.select r) s = (Outcome.roleTaken, s)) := by
  constructor
  · intro s h
    induction h with
    | init => simp [initialStore]
    | callback u d s hs ih =>
        cases d with
        | noop => exact ih
        | select r =>
            rw [select_assignments]
            exact ih
        | confirm r =>
            rw [confirm_snd]
            by_cases h1 : (dictGet r s.assignments).isSome = true
            · simpa [h1] using ih
            · by_cases h2 : (get_user_role s.assignments u.user_id).isSome = true
              · simpa [h1, h2] using ih
              · have hfree : dictGet r s.assignments = none :=
                  Option.not_isSome_iff_eq_none.mp h1
                have hr : r ∉ s.assignments.map Prod.fst := by
                  intro hmem
                  obtain ⟨p, hp, hpk⟩ := List.mem_map.mp hmem
                  exact (dictGet_eq_none_iff r s.assignments).mp hfree p hp hpk
                rw [if_neg h1, if_neg h2]
                show ((dictInsert r ⟨u.user_id, u.name⟩ s.assignments).map Prod.fst).Nodup
                rw [dictInsert_eq_append _ hfree]
                simp [List.nodup_append, ih, hr]
        | cancel => exact ih
    | reset_step admins uid s hs ih =>
        unfold reset
        split
        · simp [initialStore]
        · exact ih
  · intro u r s h
    exact select_taken u r s h

theorem c4_amended_witness :
    (initialStore.assignments.map Prod.fst).Nodup ∧
    roles_callback ⟨2, "u2"⟩ (Callback.select "pm")
        { assignments := [("pm", ⟨1, "u1"⟩)], pending := [] } =
      (Outcome.roleTaken, { assignments := [("pm", ⟨1, "u1"⟩)], pending := [] }) :=
  ⟨c4_amended.1 initialStore Reachable.init,
   c4_amended.2 ⟨2, "u2"⟩ "pm" _ (by decide)⟩

/-- Claim C5: in every state reachable from the empty store, each claimant
identity appears in at most one Assignment — the claimant ids stored in the
assignments map are pairwise distinct. -/
theorem c5_one_role_per_claimant (s : Store) (h : Reachable s) :
    s.assignments.Pairwise (fun a b => a.2.user_id ≠ b.2.user_id) := by
  induction h with
  | init => simp [initialStore]
  | callback u d s hs ih =>
      cases d with
      | noop => exact ih
      | select r =>
          rw [select_assignments]
          exact ih
      | confirm r =>
          rw [confirm_snd]
          by_cases h1 : (dictGet r s.assignments).isSome = true
          · simpa [h1] using ih
          · by_cases h2 : (get_user_role s.assignments u.user_id).isSome = true
            · simpa [h1, h2] using ih
            · have hfree : dictGet r s.assignments = none :=
                Option.not_isSome_iff_eq_none.mp h1
              have huser : get_user_role s.assignments u.user_id = none :=
                Option.not_isSome_iff_eq_none.mp h2
              rw [if_neg h1, if_neg h2]
              show List.Pairwise (fun a b => a.2.user_id ≠ b.2.user_id)
                (dictInsert r ⟨u.user_id, u.name⟩ s.assignments)
              rw [dictInsert_eq_append _ hfree, List.pairwise_append]
              refine ⟨ih, by simp, ?_⟩
              intro a ha b hb
              simp only [List.mem_singleton] at hb
              subst hb
              exact (get_user_role_eq_none_iff s.assignments u.user_id).mp huser a ha
      | cancel => exact ih
  | reset_step admins uid s hs ih =>
      unfold reset
      split
      · simp [initialStore]
      · exact ih

theorem c5_one_role_per_claimant_witness :
    ((roles_callback ⟨1, "u1"⟩ (Callback.confirm "pm") initialStore).2).assignments.Pairwise
      (fun a b => a.2.user_id ≠ b.2.user_id) :=
  c5_one_role_per_claimant _ (Reachable.callback _ _ _ Reachable.init)

/-- One step of the two-claimant race: which of the four callbacks fires. -/
inductive RaceOp where
  | sel1
  | sel2
  | con1
  | con2
deriving DecidableEq, Repr

/-- Dispatch one race step to the handler. -/
def raceStep (u1 u2 : UserInfo) (r : String) (op : RaceOp) (s : Store) : Outcome × Store :=
  match op with
  | RaceOp.sel1 => roles_callback u1 (Callback.select r) s
  | RaceOp.sel2 => roles_callback u2 (Callback.select r) s
  | RaceOp.con1 => roles_callback u1 (Callback.confirm r) s
  | RaceOp.con2 => roles_callback u2 (Callback.confirm r) s

/-- Run a race schedule, returning the final store together with the outcomes
of claimant 1's confirm and claimant 2's confirm (when they occur). -/
def runRace (u1 u2 : UserInfo) (r : String) :
    List RaceOp → Store → Store × Option Outcome × Option Outcome
  | [], s => (s, none, none)
  | op :: rest, s =>
      let res := raceStep u1 u2 r op s
      let next := runRace u1 u2 r rest res.2
      match op with
      | RaceOp.con1 => (next.1, some res.1, next.2.2)
      | RaceOp.con2 => (next.1, next.2.1, some res.1)
      | _ => next

/-- The six schedules in which each claimant's select precedes their confirm. -/
def raceInterleavings : List (List RaceOp) :=
  [ [RaceOp.sel1, RaceOp.sel2, RaceOp.con1, RaceOp.con2],
    [RaceOp.sel1, RaceOp.sel2, RaceOp.con2, RaceOp.con1],
    [RaceOp.sel2, RaceOp.sel1, RaceOp.con1, RaceOp.con2],
    [RaceOp.sel2, RaceOp.sel1, RaceOp.con2, RaceOp.con1],
    [RaceOp.sel1, RaceOp.con1, RaceOp.sel2, RaceOp.con2],
    [RaceOp.sel2, RaceOp.con2, RaceOp.sel1, RaceOp.con1] ]

/-- Claim C3: two distinct claimants race select-then-confirm for the same
catalog role from a state where the role is unassigned and neither claimant
holds an Assignment.  In every interleaving exactly one confirm succeeds and
installs that claimant's Assignment for the role, while the other confirm
fails with `RoleTaken`. -/
theorem c3_race_safety (u1 u2 : UserInfo) (r : String) (s0 : Store) (l : List RaceOp)
    (hl : l ∈ raceInterleavings)
    (hdistinct : u1.user_id ≠ u2.user_id)
    (hfree : dictGet r s0.assignments = none)
    (h1 : get_user_role s0.assignments u1.user_id = none)
    (h2 : get_user_role s0.assignments u2.user_id = none)
    (hrole : get_role_by_key r ≠ none) :
    ((runRace u1 u2 r l s0).2.1 = some Outcome.assigned ∧
     (runRace u1 u2 r l s0).2.2 = some Outcome.roleTaken ∧
     dictGet r (runRace u1 u2 r l s0).1.assignments = some ⟨u1.user_id, u1.name⟩) ∨
    ((runRace u1 u2 r l s0).2.1 = some Outcome.roleTaken ∧
     (runRace u1 u2 r l s0).2.2 = some Outcome.assigned ∧
     dictGet r (runRace u1 u2 r l s0).1.assignments = some ⟨u2.user_id, u2.name⟩) := by
  obtain ⟨a0, p0⟩ := s0
  dsimp only at hfree h1 h2
  have hs1 : ∀ p, roles_callback u1 (Callback.select r) ⟨a0, p⟩ =
      (Outcome.pendingSet, ⟨a0, dictInsert u1.user_id r p⟩) :=
    fun p => select_success u1 r ⟨a0, p⟩ hfree h1 hrole
  have hs2 : ∀ p, roles_callback u2 (Callback.select r) ⟨a0, p⟩ =
      (Outcome.pendingSet, ⟨a0, dictInsert u2.user_id r p⟩) :=
    fun p => select_success u2 r ⟨a0, p⟩ hfree h2 hrole
  have hc1 : ∀ p, roles_callback u1 (Callback.confirm r) ⟨a0, p⟩ =
      (Outcome.assigned, ⟨dictInsert r ⟨u1.user_id, u1.name⟩ a0, dictPop u1.user_id p⟩) :=
    fun p => confirm_success u1 r ⟨a0, p⟩ hfree h1 hrole
  have hc2 : ∀ p, roles_callback u2 (Callback.confirm r) ⟨a0, p⟩ =
      (Outcome.assigned, ⟨dictInsert r ⟨u2.user_id, u2.name⟩ a0, dictPop u2.user_id p⟩) :=
    fun p => confirm_success u2 r ⟨a0, p⟩ hfree h2 hrole
  have hs2taken : ∀ p, roles_callback u2 (Callback.select r)
        ⟨dictInsert r ⟨u1.user_id, u1.name⟩ a0, p⟩ =
      (Outcome.roleTaken, ⟨dictInsert r ⟨u1.user_id, u1.name⟩ a0, p⟩) :=
    fun p => select_taken u2 r _ (by simp)
  have hc2taken : ∀ p, roles_callback u2 (Callback.confirm r)
        ⟨dictInsert r ⟨u1.user_id, u1.name⟩ a0, p⟩ =
      (Outcome.roleTaken, ⟨dictInsert r ⟨u1.user_id, u1.name⟩ a0, p⟩) :=
    fun p => confirm_taken u2 r _ (by simp)
  have hs1taken : ∀ p, roles_callback u1 (Callback.select r)
        ⟨dictInsert r ⟨u2.user_id, u2.name⟩ a0, p⟩ =
      (Outcome.roleTaken, ⟨dictInsert r ⟨u2.user_id, u2.name⟩ a0, p⟩) :=
    fun p => select_taken u1 r _ (by simp)
  have hc1taken : ∀ p, roles_callback u1 (Callback.confirm r)
        ⟨dictInsert r ⟨u2.user_id, u2.name⟩ a0, p⟩ =
      (Outcome.roleTaken, ⟨dictInsert r ⟨u2.user_id, u2.name⟩ a0, p⟩) :=
    fun p => confirm_taken u1 r _ (by simp)
  simp only [raceInterleavings, List.mem_cons, List.not_mem_nil, or_false] at hl
  rcases hl with rfl | rfl | rfl | rfl | rfl | rfl <;>
    simp [runRace, raceStep, hs1, hs2, hc1, hc2, hs2taken, hc2taken, hs1taken, hc1taken]

theorem c3_race_safety_witness :
    ((runRace ⟨1, "u1"⟩ ⟨2, "u2"⟩ "pm"
        [RaceOp.sel1, RaceOp.sel2, RaceOp.con1, RaceOp.con2] initialStore).2.1 =
          some Outcome.assigned ∧
     (runRace ⟨1, "u1"⟩ ⟨2, "u2"⟩ "pm"
        [RaceOp.sel1, RaceOp.sel2, RaceOp.con1, RaceOp.con2] initialStore).2.2 =
          some Outcome.roleTaken ∧
     dictGet "pm" (runRace ⟨1, "u1"⟩ ⟨2, "u2"⟩ "pm"
        [RaceOp.sel1, RaceOp.sel2, RaceOp.con1, RaceOp.con2] initialStore).1.assignments =
          some ⟨1, "u1"⟩) ∨
    ((runRace ⟨1, "u1"⟩ ⟨2, "u2"⟩ "pm"
        [RaceOp.sel1, RaceOp.sel2, RaceOp.con1, RaceOp.con2] initialStore).2.1 =
          some Outcome.roleTaken ∧
     (runRace ⟨1, "u1"⟩ ⟨2, "u2"⟩ "pm"
        [RaceOp.sel1, RaceOp.sel2, RaceOp.con1, RaceOp.con2] initialStore).2.2 =
          some Outcome.assigned ∧
     dictGet "pm" (runRace ⟨1, "u1"⟩ ⟨2, "u2"⟩ "pm"
        [RaceOp.sel1, RaceOp.sel2, RaceOp.con1, RaceOp.con2] initialStore).1.assignments =
          some ⟨2, "u2"⟩) :=
  c3_race_safety ⟨1, "u1"⟩ ⟨2, "u2"⟩ "pm" initialStore
    [RaceOp.sel1, RaceOp.sel2, RaceOp.con1, RaceOp.con2]
    (by decide) (by decide) rfl rfl rfl (by decide)
